import Mathlib

/-!
Shallow embedding of the EtcdPeer reconciliation core of
`etcd-cluster-operator` (files `controllers/etcdpeer_controller.go` and
`controllers/peer/actions.go`), together with theorems settling the frozen
claims about it.

Store interactions (`client.Get`, `client.Delete`, `client.Patch`,
`client.Create`) are modelled by passing their observed outcomes in as
explicit inputs; a `resource.Quantity` is modelled by its milli-unit integer
value (`MilliValue`); a Go `nil`-pointer dereference is modelled as an
`Option` returning `none` (a "panic" outcome).
-/

/-- Environment variable of a container: `corev1.EnvVar` restricted to the
`Name`/`Value` fields this code uses. -/
structure EnvVar where
  name : String
  value : String
deriving Repr, DecidableEq

/-- The `net/url.URL` values built by this code only ever set `Scheme` and
`Host`, so `URL.String()` renders as `scheme://host`. -/
structure URL where
  scheme : String
  host : String
deriving Repr, DecidableEq

/-- Rendering of a scheme-and-host-only `url.URL` by `URL.String()`. -/
def urlString (u : URL) : String :=
  u.scheme ++ "://" ++ u.host

/-- Constant `etcdScheme` from `etcdpeer_controller.go`. -/
def etcdScheme : String := "http"

/-- Constant `peerLabel` from `etcdpeer_controller.go`. -/
def peerLabel : String := "etcd.improbable.io/peer-name"

/-- Constant `pvcCleanupFinalizer` from `etcdpeer_controller.go`. -/
def pvcCleanupFinalizer : String := "etcdpeer.etcd.improbable.io/pvc-cleanup"

/-- Constant `etcdImage` from `etcdpeer_controller.go`. -/
def etcdImage : String := "quay.io/coreos/etcd:v3.2.28"

/-- Modelled from the spec: `etcdPeerPort`, a fixed protocol constant declared
outside the given sources; the spec fixes the peer network port to 2380. -/
def etcdPeerPort : Nat := 2380

/-- Modelled from the spec: `etcdClientPort`, the second fixed network port
declared outside the given sources (the upstream etcd client default). -/
def etcdClientPort : Nat := 2379

/-- Modelled from the spec: `appName`, the application-name label value
declared outside the given sources. -/
def appName : String := "etcd"

/-- Modelled from the spec: `appLabel`, the application-name label key
declared outside the given sources. -/
def appLabel : String := "app.kubernetes.io/name"

/-- Modelled from the spec: `clusterLabel`, the cluster-name label key
declared outside the given sources. -/
def clusterLabel : String := "etcd.improbable.io/cluster-name"

/-- Modelled from the spec: `etcdDataMountPath`, the fixed data directory
path, declared outside the given sources. -/
def etcdDataMountPath : String := "/var/lib/etcd"

/-- Member of the static initial cluster:
`etcdv1alpha1.InitialClusterMember`. -/
structure InitialClusterMember where
  name : String
  host : String
deriving Repr, DecidableEq

/-- Static bootstrap configuration: `etcdv1alpha1.StaticBootstrap`. -/
structure StaticBootstrap where
  initialCluster : List InitialClusterMember
deriving Repr, DecidableEq

/-- The `etcdv1alpha1.InitialClusterState` string enum: the two named
constants, or any other value of the underlying string type. -/
inductive InitialClusterState where
  | stateNew
  | stateExisting
  | stateOther
deriving Repr, DecidableEq

/-- Bootstrap block of the peer spec: static configuration pointer (Go
`*StaticBootstrap`, `none` = nil) and the initial-cluster-state flag. -/
structure Bootstrap where
  static : Option StaticBootstrap
  initialClusterState : InitialClusterState
deriving Repr, DecidableEq

/-- Volume-claim spec template. The reconciliation core passes it through
verbatim (`DeepCopy`), so its contents are opaque here. -/
structure PersistentVolumeClaimSpec where
  raw : String
deriving Repr, DecidableEq

/-- Storage block of the peer spec, holding the volume-claim template. -/
structure EtcdPeerStorage where
  volumeClaimTemplate : PersistentVolumeClaimSpec
deriving Repr, DecidableEq

/-- Resource requirements of the pod template. Only the CPU limit is read by
this code; it is modelled by its `MilliValue` (`none` = no CPU entry in the
`Limits` list; Go's `ResourceList.Cpu()` then yields the zero quantity). -/
structure ResourceRequirements where
  limitsCpuMilli : Option Int
deriving Repr, DecidableEq

/-- The CPU limit quantity's milli value, as `Resources.Limits.Cpu()` reads
it: the stored quantity, or zero when the limits carry no CPU entry. -/
def ResourceRequirements.limitsCpu (r : ResourceRequirements) : Int :=
  r.limitsCpuMilli.getD 0

/-- User-supplied pod metadata: extra annotation pairs (Go map modelled as an
association list in iteration order). -/
structure PodMetadata where
  userAnnotations : List (String × String)
deriving Repr, DecidableEq

/-- Pod customization block of the peer spec (`*EtcdPodTemplateSpec`). -/
structure PodTemplate where
  metadata : Option PodMetadata
  resources : Option ResourceRequirements
deriving Repr, DecidableEq

/-- Spec of an `EtcdPeer` object (`etcdv1alpha1.EtcdPeerSpec`). -/
structure EtcdPeerSpec where
  clusterName : String
  bootstrap : Bootstrap
  storage : EtcdPeerStorage
  podTemplate : Option PodTemplate
deriving Repr, DecidableEq

/-- Object metadata (`metav1.ObjectMeta`), restricted to the fields this code
reads: name, namespace (`ns`), deletion timestamp (`none` = the zero time,
i.e. `DeletionTimestamp.IsZero()` holds), finalizers and labels. -/
structure ObjectMeta where
  name : String
  ns : String
  deletionTimestamp : Option Nat
  finalizers : List String
  labels : List (String × String)
deriving Repr, DecidableEq

/-- The `EtcdPeer` object: metadata plus spec. -/
structure EtcdPeer where
  metadata : ObjectMeta
  spec : EtcdPeerSpec
deriving Repr, DecidableEq

/-- A `corev1.PersistentVolumeClaim` object: metadata plus its opaque spec. -/
structure PersistentVolumeClaim where
  metadata : ObjectMeta
  spec : PersistentVolumeClaimSpec
deriving Repr, DecidableEq

/-- Modelled from the spec: the `etcdenvvar` constant names (declared outside
the given sources); the source comment fixes `InitialCluster` to
`ETCD_INITIAL_CLUSTER` and the others follow the same convention. -/
def etcdenvvar.InitialCluster : String := "ETCD_INITIAL_CLUSTER"

/-- Environment variable name for the peer's own member name. -/
def etcdenvvar.Name : String := "ETCD_NAME"

/-- Environment variable name for the initial cluster token. -/
def etcdenvvar.InitialClusterToken : String := "ETCD_INITIAL_CLUSTER_TOKEN"

/-- Environment variable name for the advertised peer URLs. -/
def etcdenvvar.InitialAdvertisePeerURLs : String := "ETCD_INITIAL_ADVERTISE_PEER_URLS"

/-- Environment variable name for the advertised client URLs. -/
def etcdenvvar.AdvertiseClientURLs : String := "ETCD_ADVERTISE_CLIENT_URLS"

/-- Environment variable name for the listen peer URLs. -/
def etcdenvvar.ListenPeerURLs : String := "ETCD_LISTEN_PEER_URLS"

/-- Environment variable name for the listen client URLs. -/
def etcdenvvar.ListenClientURLs : String := "ETCD_LISTEN_CLIENT_URLS"

/-- Environment variable name for the initial cluster state flag. -/
def etcdenvvar.InitialClusterState : String := "ETCD_INITIAL_CLUSTER_STATE"

/-- Environment variable name for the data directory. -/
def etcdenvvar.DataDir : String := "ETCD_DATA_DIR"

/-- Embedding of `initialMemberURL`: the canonical per-member URL
`http://<host>:<peer-port>`. -/
def initialMemberURL (member : InitialClusterMember) : URL :=
  { scheme := etcdScheme, host := member.host ++ ":" ++ toString etcdPeerPort }

/-- Embedding of `staticBootstrapInitialCluster`: renders the value of the
`ETCD_INITIAL_CLUSTER` environment variable, `name=url` pairs joined by
commas in list order. -/
def staticBootstrapInitialCluster (static : StaticBootstrap) : String :=
  String.intercalate ","
    (static.initialCluster.map (fun member =>
      member.name ++ "=" ++ urlString (initialMemberURL member)))

/-- Embedding of `advertiseURL`: the canonical URL of this peer, built from
its name, the cluster name and the namespace. -/
def advertiseURL (etcdPeer : EtcdPeer) (port : Nat) : URL :=
  { scheme := etcdScheme,
    host := etcdPeer.metadata.name ++ "." ++ etcdPeer.spec.clusterName ++ "."
      ++ etcdPeer.metadata.ns ++ ".svc:" ++ toString port }

/-- Embedding of `bindAllAddress`. -/
def bindAllAddress (port : Nat) : URL :=
  { scheme := etcdScheme, host := "0.0.0.0:" ++ toString port }

/-- Embedding of `clusterStateValue`: renders the initial-cluster-state flag
as `new`/`existing`, empty string for any other value. -/
def clusterStateValue (cs : InitialClusterState) : String :=
  match cs with
  | .stateNew => "new"
  | .stateExisting => "existing"
  | .stateOther => ""

/-- Embedding of `goMaxProcs`: no hint for a non-positive CPU limit,
otherwise the limit in whole cores (Go integer division, i.e. floor for
positive values) clamped below by 1. The quantity is given by its milli
value; `Quantity.Sign()` is the sign of that value. -/
def goMaxProcs (cpuLimitMilli : Int) : Option Int :=
  if cpuLimitMilli ≤ 0 then
    none
  else
    let g := cpuLimitMilli / 1000
    some (if g < 1 then 1 else g)

/-- Modelled from the spec:
`etcdv1alpha1.IsInvalidUserProvidedAnnotationName` (declared outside the
given sources) rejects annotation keys in the operator's reserved namespace
prefix. -/
def IsInvalidUserProvidedAnnotationName (name : String) : Bool :=
  name.startsWith "etcd.improbable.io/"

/-- Embedding of the annotation-stamping loop at the end of
`defineReplicaSet`: each user pair is added unless its key is invalid or a
pair with that key is already present. The Go map is iterated in an
unspecified order; here the association list's order stands in for it. -/
def stampAnnotations (init : List (String × String))
    (user : List (String × String)) : List (String × String) :=
  user.foldl (fun acc nv =>
    if !IsInvalidUserProvidedAnnotationName nv.1 && (acc.lookup nv.1).isNone then
      acc ++ [nv]
    else
      acc) init

/-- Container port entry (`corev1.ContainerPort`). -/
structure ContainerPort where
  name : String
  containerPort : Nat
deriving Repr, DecidableEq

/-- Volume mount entry (`corev1.VolumeMount`). -/
structure VolumeMount where
  name : String
  mountPath : String
deriving Repr, DecidableEq

/-- The etcd container (`corev1.Container`), restricted to the fields this
code sets. -/
structure Container where
  name : String
  image : String
  env : List EnvVar
  ports : List ContainerPort
  volumeMounts : List VolumeMount
  resources : Option ResourceRequirements
deriving Repr, DecidableEq

/-- Metadata of the built replica set: labels, annotations, identity, and the
controller owner reference (recorded by the owning peer's name). -/
structure ReplicaSetMeta where
  labels : List (String × String)
  annotations : List (String × String)
  name : String
  ns : String
  ownerRefs : List String
deriving Repr, DecidableEq

/-- Pod template of the replica set (`corev1.PodTemplateSpec` restricted to
the fields this code sets); `volumes` maps volume name to claim name. -/
structure PodTemplateSpec where
  labels : List (String × String)
  annotations : List (String × String)
  name : String
  ns : String
  hostname : String
  subdomain : String
  containers : List Container
  volumes : List (String × String)
deriving Repr, DecidableEq

/-- An `appsv1.ReplicaSet`, restricted to the fields this code sets. -/
structure ReplicaSet where
  metadata : ReplicaSetMeta
  replicas : Int
  selector : List (String × String)
  template : PodTemplateSpec
deriving Repr, DecidableEq

/-- The identity labels applied uniformly to the replica set, its selector,
its pod template, and the desired volume claim. -/
def identityLabels (peer : EtcdPeer) : List (String × String) :=
  [(appLabel, appName), (clusterLabel, peer.spec.clusterName),
   (peerLabel, peer.metadata.name)]

/-- The nine environment entries `defineReplicaSet` always places on the
etcd container, in source order. -/
def baseContainerEnv (peer : EtcdPeer) (static : StaticBootstrap) : List EnvVar :=
  [⟨etcdenvvar.InitialCluster, staticBootstrapInitialCluster static⟩,
   ⟨etcdenvvar.Name, peer.metadata.name⟩,
   ⟨etcdenvvar.InitialClusterToken, peer.spec.clusterName⟩,
   ⟨etcdenvvar.InitialAdvertisePeerURLs, urlString (advertiseURL peer etcdPeerPort)⟩,
   ⟨etcdenvvar.AdvertiseClientURLs, urlString (advertiseURL peer etcdClientPort)⟩,
   ⟨etcdenvvar.ListenPeerURLs, urlString (bindAllAddress etcdPeerPort)⟩,
   ⟨etcdenvvar.ListenClientURLs, urlString (bindAllAddress etcdClientPort)⟩,
   ⟨etcdenvvar.InitialClusterState, clusterStateValue peer.spec.bootstrap.initialClusterState⟩,
   ⟨etcdenvvar.DataDir, etcdDataMountPath⟩]

/-- The resources copied onto the etcd container: set exactly when the peer's
pod template carries a resources block. -/
def containerResources (peer : EtcdPeer) : Option ResourceRequirements :=
  match peer.spec.podTemplate with
  | some pt => pt.resources
  | none => none

/-- The etcd container's environment: the base entries, with `GOMAXPROCS`
appended when a resources block is present and `goMaxProcs` of its CPU limit
yields a hint. -/
def containerEnvVars (peer : EtcdPeer) (static : StaticBootstrap) : List EnvVar :=
  match containerResources peer with
  | some res =>
    match goMaxProcs res.limitsCpu with
    | some value => baseContainerEnv peer static ++ [⟨"GOMAXPROCS", toString value⟩]
    | none => baseContainerEnv peer static
  | none => baseContainerEnv peer static

/-- The pod template's annotation map: the user-supplied pairs stamped onto
the initially empty map, when the pod template carries a metadata block. -/
def templateAnnotationsOf (peer : EtcdPeer) : List (String × String) :=
  match peer.spec.podTemplate with
  | some pt =>
    match pt.metadata with
    | some md => stampAnnotations [] md.userAnnotations
    | none => []
  | none => []

/-- Embedding of `defineReplicaSet`. The source dereferences
`peer.Spec.Bootstrap.Static` unconditionally, so a nil static bootstrap
pointer is a nil-pointer dereference (Go panic), modelled as `none`. -/
def defineReplicaSet (peer : EtcdPeer) : Option ReplicaSet :=
  match peer.spec.bootstrap.static with
  | none => none
  | some static =>
    some
      { metadata :=
          { labels := identityLabels peer
            annotations := []
            name := peer.metadata.name
            ns := peer.metadata.ns
            ownerRefs := [peer.metadata.name] }
        replicas := 1
        selector := identityLabels peer
        template :=
          { labels := identityLabels peer
            annotations := templateAnnotationsOf peer
            name := peer.metadata.name
            ns := peer.metadata.ns
            hostname := peer.metadata.name
            subdomain := peer.spec.clusterName
            containers :=
              [{ name := appName
                 image := etcdImage
                 env := containerEnvVars peer static
                 ports := [⟨"etcd-client", etcdClientPort⟩, ⟨"etcd-peer", etcdPeerPort⟩]
                 volumeMounts := [⟨"etcd-data", etcdDataMountPath⟩]
                 resources := containerResources peer }]
            volumes := [("etcd-data", peer.metadata.name)] } }

/-- The environment of the pods a replica set runs: the concatenated
environments of its containers (`defineReplicaSet` builds exactly one). -/
def podEnv (rs : ReplicaSet) : List EnvVar :=
  (rs.template.containers.map Container.env).flatten

/-- Embedding of `pvcForPeer`: the desired volume claim, named after the
peer, labelled with the identity labels, spec copied verbatim from the
storage template. -/
def pvcForPeer (peer : EtcdPeer) : PersistentVolumeClaim :=
  { metadata :=
      { name := peer.metadata.name
        ns := peer.metadata.ns
        deletionTimestamp := none
        finalizers := []
        labels :=
          [(appLabel, appName), (clusterLabel, peer.spec.clusterName),
           (peerLabel, peer.metadata.name)] }
    spec := peer.spec.storage.volumeClaimTemplate }

/-- Embedding of `hasPvcDeletionFinalizer`: whether the peer's metadata still
carries the cleanup finalizer token. -/
def hasPvcDeletionFinalizer (peer : EtcdPeer) : Bool :=
  peer.metadata.finalizers.contains pvcCleanupFinalizer

/-- Lookup of an environment variable's value in a container environment
list (first entry with the name wins, as for the process environment). -/
def lookupEnv (env : List EnvVar) (n : String) : Option String :=
  (env.find? (fun e => e.name == n)).map (fun e => e.value)

/-- Outcome of one `client.Get` point read: the object, a not-found result,
or any other failure (the case `client.IgnoreNotFound(err) != nil`). -/
inductive GetResult (α : Type) where
  | found (obj : α)
  | notFound
  | failed (msg : String)
deriving Repr, DecidableEq

/-- Whether a read outcome is a non-not-found failure. -/
def GetResult.isFailed {α : Type} : GetResult α → Bool
  | .failed _ => true
  | _ => false

/-- The object read, when the read found one. -/
def GetResult.toOption {α : Type} : GetResult α → Option α
  | .found obj => some obj
  | _ => none

/-- Embedding of the `State` snapshot structure: observed peer, volume claim
and replica set (each present-or-absent), and the desired volume claim and
replica set. -/
structure State where
  peer : Option EtcdPeer
  pvc : Option PersistentVolumeClaim
  desiredPVC : Option PersistentVolumeClaim
  replicaSet : Option ReplicaSet
  desiredReplicaSet : Option ReplicaSet
deriving Repr, DecidableEq

/-- Modelled from the spec: `EtcdPeer.Default` (declared outside the given
sources). The spec says only that the peer's defaulting rules are applied
in-memory and names no rule that touches the fields read by this core, so
defaulting is modelled as the identity on those fields. -/
def EtcdPeerDefault (peer : EtcdPeer) : EtcdPeer :=
  peer

/-- Outcome of one `StateCollector.GetState` call: a snapshot, an aborting
read error, or a Go panic (nil static bootstrap dereferenced while building
the desired replica set). -/
inductive CollectOutcome where
  | ok (state : State)
  | err (msg : String)
  | panics
deriving Repr, DecidableEq

/-- Embedding of `StateCollector.GetState`, as a function of the outcomes of
its three point reads, performed in source order (peer, then volume claim,
then replica set). A not-found read leaves the field absent; any other read
failure aborts immediately with that error; if the peer is present it is
defaulted and the desired volume claim and replica set are computed. -/
def GetState (rPeer : GetResult EtcdPeer) (rPvc : GetResult PersistentVolumeClaim)
    (rRs : GetResult ReplicaSet) : CollectOutcome :=
  match rPeer with
  | .failed msg => .err msg
  | _ =>
    match rPvc with
    | .failed msg => .err msg
    | _ =>
      match rRs with
      | .failed msg => .err msg
      | _ =>
        match rPeer.toOption with
        | none =>
          .ok { peer := none, pvc := rPvc.toOption, desiredPVC := none,
                replicaSet := rRs.toOption, desiredReplicaSet := none }
        | some peer0 =>
          let peer := EtcdPeerDefault peer0
          match defineReplicaSet peer with
          | none => .panics
          | some desiredRs =>
            .ok { peer := some peer, pvc := rPvc.toOption,
                  desiredPVC := some (pvcForPeer peer),
                  replicaSet := rRs.toOption, desiredReplicaSet := some desiredRs }

/-- Store responses consumed by one `PVCDeleter.Execute` pass (file
`controllers/peer/actions.go`): the `ObjectKeyFromObject` outcome, the point
read of the expected volume claim, and the outcomes of the delete and of the
finalizer-removing patch, should they be issued. -/
structure CleanupEnv where
  objectKeyErr : Option String
  getPvc : GetResult PersistentVolumeClaim
  deleteErr : Option String
  patchErr : Option String
deriving Repr, DecidableEq

/-- Result of one `PVCDeleter.Execute` pass: the returned error, and whether
a `client.Delete` of the claim and a `client.Patch` removing the cleanup
finalizer were issued during the pass. -/
structure ExecOutcome where
  err : Option String
  deleteCalled : Bool
  patchCalled : Bool
deriving Repr, DecidableEq

/-- Embedding of `PVCDeleter.Execute`: reads the expected volume claim; if
present with a zero deletion timestamp, deletes it and returns; if present
but already marked for deletion, or not found, falls through to the
finalizer-removal step; a non-not-found read failure is returned. The
finalizer-removal step patches the peer with the cleanup finalizer removed
and returns the patch outcome. -/
def PVCDeleter.Execute (peer : EtcdPeer) (env : CleanupEnv) : ExecOutcome :=
  match env.objectKeyErr with
  | some e =>
    { err := some ("unable to get ObjectKey from PVC: " ++ e),
      deleteCalled := false, patchCalled := false }
  | none =>
    let expectedPvc := pvcForPeer peer
    let removeFinalizer : ExecOutcome :=
      match env.patchErr with
      | some e =>
        { err := some ("failed to remove PVC cleanup finalizer: " ++ e),
          deleteCalled := false, patchCalled := true }
      | none => { err := none, deleteCalled := false, patchCalled := true }
    match env.getPvc with
    | .found actualPvc =>
      if actualPvc.metadata.deletionTimestamp.isNone then
        match env.deleteErr with
        | none =>
          let _ := expectedPvc
          { err := none, deleteCalled := true, patchCalled := false }
        | some e =>
          { err := some ("failed to delete PVC for peer: " ++ e),
            deleteCalled := true, patchCalled := false }
      else
        removeFinalizer
    | .notFound => removeFinalizer
    | .failed e =>
      { err := some ("failed to get PVC for deleted peer: " ++ e),
        deleteCalled := false, patchCalled := false }

/-- A `runtime.Object` passed to the create action: either a volume claim or
a replica set. -/
inductive RuntimeObject where
  | pvcObject (pvc : PersistentVolumeClaim)
  | replicaSetObject (rs : ReplicaSet)
deriving Repr, DecidableEq

/-- The polymorphic `Action` values the decision switch can select:
`PeerPVCDeleter`, `NoopAction`, or `CreateRuntimeObject` (whose object field
is a Go interface value, hence possibly nil). -/
inductive ReconcileAction where
  | PeerPVCDeleter (peer : EtcdPeer)
  | NoopAction
  | CreateRuntimeObject (obj : Option RuntimeObject)
deriving Repr, DecidableEq

/-- Embedding of the decision switch inside `EtcdPeerReconciler.Reconcile`
(first match wins; `none` when no case matches and the `action` interface
variable stays nil). -/
def selectAction (state : State) (peer : EtcdPeer) : Option ReconcileAction :=
  if !peer.metadata.deletionTimestamp.isNone && hasPvcDeletionFinalizer peer then
    some (.PeerPVCDeleter peer)
  else if !peer.metadata.deletionTimestamp.isNone then
    some .NoopAction
  else if state.pvc.isNone then
    some (.CreateRuntimeObject (state.desiredPVC.map .pvcObject))
  else if state.replicaSet.isNone then
    some (.CreateRuntimeObject (state.desiredReplicaSet.map .replicaSetObject))
  else
    none

/-- Outcome of one `client.Create` call as the create action observes it. -/
inductive CreateResult where
  | created
  | alreadyExists
  | failed (msg : String)
deriving Repr, DecidableEq

/-- Modelled from the spec: `CreateRuntimeObject.Execute` (declared outside
the given sources) attempts to create the object; an already-exists failure
is tolerated as success, any other failure is surfaced. -/
def CreateRuntimeObject.Execute (obj : Option RuntimeObject)
    (r : CreateResult) : Option String :=
  match obj, r with
  | _, .created => none
  | _, .alreadyExists => none
  | _, .failed msg => some msg

/-- Store responses consumed by one `EtcdPeerReconciler.Reconcile` pass: the
three collection reads, the result of `state.peer.ValidateCreate()` (declared
outside the given sources, hence supplied as an observed outcome), and the
responses consumed by whichever action runs. -/
structure ReconcileEnv where
  rPeer : GetResult EtcdPeer
  rPvc : GetResult PersistentVolumeClaim
  rRs : GetResult ReplicaSet
  validateErr : Option String
  cleanup : CleanupEnv
  createResult : CreateResult
deriving Repr, DecidableEq

/-- Dispatch of `action.Execute(ctx)` for the selected action. The
`PeerPVCDeleter` referenced by the reconciler is the cleanup action whose
implementation is `PVCDeleter.Execute` (file `controllers/peer/actions.go`);
`NoopAction.Execute` does nothing (modelled from the spec, declared outside
the given sources). -/
def executeAction (a : ReconcileAction) (env : ReconcileEnv) : Option String :=
  match a with
  | .PeerPVCDeleter peer => (PVCDeleter.Execute peer env.cleanup).err
  | .NoopAction => none
  | .CreateRuntimeObject obj => CreateRuntimeObject.Execute obj env.createResult

/-- Outcome of one reconciliation pass: a Go panic, or a return of
`(ctrl.Result{}, err)` together with the action executed during the pass
(`none` when no action ran; `ctrl.Result` is always the empty value here, so
only the error component is recorded). -/
inductive ReconcileOutcome where
  | panics
  | done (executed : Option ReconcileAction) (err : Option String)
deriving Repr, DecidableEq

/-- Embedding of `EtcdPeerReconciler.Reconcile`: collect state (aborting
with a wrapped error on a failed read), end the pass cleanly if the peer is
absent or fails the defensive validation, otherwise select at most one
action and execute it, returning its error. -/
def Reconcile (env : ReconcileEnv) : ReconcileOutcome :=
  match GetState env.rPeer env.rPvc env.rRs with
  | .panics => .panics
  | .err msg => .done none (some ("error while getting current state: " ++ msg))
  | .ok state =>
    match state.peer with
    | none => .done none none
    | some peer =>
      match env.validateErr with
      | some _ => .done none none
      | none =>
        match selectAction state peer with
        | none => .done none none
        | some a => .done (some a) (executeAction a env)

/-- A `reconcile.Request` produced by the event router: the identity to
re-reconcile. -/
structure Request where
  name : String
  ns : String
deriving Repr, DecidableEq

/-- Embedding of `pvcMapper.Map`: looks up the peer-name label on the
watched object's metadata; if present, produces exactly one request for that
name in the object's namespace, otherwise none. -/
def pvcMapper.Map (o : ObjectMeta) : List Request :=
  match o.labels.lookup peerLabel with
  | some peerName => [{ name := peerName, ns := o.ns }]
  | none => []

/-- A concrete valid peer declaration (shaped like the sample manifests:
peer `one` of cluster `magic` in namespace `default`), used to instantiate
theorems with hypotheses. -/
def samplePeer : EtcdPeer :=
  { metadata :=
      { name := "one", ns := "default", deletionTimestamp := none,
        finalizers := [pvcCleanupFinalizer], labels := [] }
    spec :=
      { clusterName := "magic"
        bootstrap :=
          { static := some ⟨[⟨"one", "one.magic.default.svc"⟩,
                             ⟨"two", "two.magic.default.svc"⟩]⟩
            initialClusterState := .stateNew }
        storage := ⟨⟨"sample-storage"⟩⟩
        podTemplate := some { metadata := none, resources := some ⟨some 2500⟩ } } }

/-- A concrete peer that is marked for deletion and still carries the
cleanup finalizer. -/
def deletedPeer : EtcdPeer :=
  { samplePeer with
    metadata := { samplePeer.metadata with deletionTimestamp := some 5 } }

/-- A concrete volume claim that is present and already marked for
deletion. -/
def markedPvc : PersistentVolumeClaim :=
  { metadata :=
      { name := "one", ns := "default", deletionTimestamp := some 7,
        finalizers := [], labels := [] }
    spec := ⟨"sample-storage"⟩ }

/-- A concrete volume claim that is present with a zero deletion
timestamp. -/
def freshPvc : PersistentVolumeClaim :=
  { metadata :=
      { name := "one", ns := "default", deletionTimestamp := none,
        finalizers := [], labels := [] }
    spec := ⟨"sample-storage"⟩ }

/-- Cleanup-pass store responses where the claim is found already marked for
deletion and every issued call succeeds. -/
def markedCleanupEnv : CleanupEnv :=
  { objectKeyErr := none, getPvc := .found markedPvc,
    deleteErr := none, patchErr := none }

/-- Cleanup-pass store responses where the claim is found with a zero
deletion timestamp and every issued call succeeds. -/
def freshCleanupEnv : CleanupEnv :=
  { objectKeyErr := none, getPvc := .found freshPvc,
    deleteErr := none, patchErr := none }

/-- A snapshot in which every observed and desired object is absent. -/
def emptyState : State :=
  { peer := none, pvc := none, desiredPVC := none,
    replicaSet := none, desiredReplicaSet := none }

/-- Per-member rendering: a `name=url` pair flattens to the literal
`name=http://host:2380` form. -/
theorem member_entry_eq (m : InitialClusterMember) :
    m.name ++ "=" ++ urlString (initialMemberURL m)
      = m.name ++ "=http://" ++ m.host ++ ":2380" := by
  show m.name ++ "=" ++ ("http" ++ "://" ++ (m.host ++ ":" ++ "2380"))
      = m.name ++ "=http://" ++ m.host ++ ":2380"
  simp only [String.append_assoc]
  rw [show (":2380" : String) = ":" ++ "2380" from rfl,
      show ("=http://" : String) = "=" ++ ("http" ++ "://") from rfl]
  simp only [String.append_assoc]

/-- Claim C7: for every non-empty static bootstrap list, the initial-cluster
environment value is the members rendered in list order as
`name=http://<host>:2380` pairs joined by commas; in particular the
two-member list `one`/`two` of cluster `magic` renders to
`one=http://one.magic.default.svc:2380,two=http://two.magic.default.svc:2380`. -/
theorem claim_C7 (static : StaticBootstrap) (_hne : static.initialCluster ≠ []) :
    staticBootstrapInitialCluster static
        = String.intercalate ","
            (static.initialCluster.map
              (fun m => m.name ++ "=http://" ++ m.host ++ ":2380"))
      ∧ staticBootstrapInitialCluster
            ⟨[⟨"one", "one.magic.default.svc"⟩, ⟨"two", "two.magic.default.svc"⟩]⟩
          = "one=http://one.magic.default.svc:2380,two=http://two.magic.default.svc:2380" := by
  refine ⟨?_, ?_⟩
  · have hfun :
        (fun m : InitialClusterMember =>
            m.name ++ "=" ++ urlString (initialMemberURL m))
          = fun m => m.name ++ "=http://" ++ m.host ++ ":2380" :=
      funext member_entry_eq
    unfold staticBootstrapInitialCluster
    rw [hfun]
  · rfl

/-- Witness for claim C7 at the concrete two-member list. -/
theorem claim_C7_witness :
    staticBootstrapInitialCluster
        ⟨[⟨"one", "one.magic.default.svc"⟩, ⟨"two", "two.magic.default.svc"⟩]⟩
      = "one=http://one.magic.default.svc:2380,two=http://two.magic.default.svc:2380" :=
  (claim_C7 ⟨[⟨"one", "one.magic.default.svc"⟩, ⟨"two", "two.magic.default.svc"⟩]⟩
    (by decide)).2

/-- Inversion of `defineReplicaSet`: a successfully built replica set comes
from a present static bootstrap, and its pod environment is the container
environment built for the peer. -/
theorem defineReplicaSet_inv (peer : EtcdPeer) (rs : ReplicaSet)
    (h : defineReplicaSet peer = some rs) :
    ∃ st, peer.spec.bootstrap.static = some st
        ∧ podEnv rs = containerEnvVars peer st := by
  cases hst : peer.spec.bootstrap.static with
  | none =>
    unfold defineReplicaSet at h
    rw [hst] at h
    exact Option.noConfusion h
  | some st =>
    refine ⟨st, rfl, ?_⟩
    unfold defineReplicaSet at h
    rw [hst] at h
    simp only [Option.some.injEq] at h
    subst h
    simp [podEnv]

/-- Lookup of the hint variable in the container environment: present with
the rendered hint exactly when `goMaxProcs` of the CPU limit yields one. -/
theorem lookup_gomaxprocs (peer : EtcdPeer) (st : StaticBootstrap) :
    lookupEnv (containerEnvVars peer st) "GOMAXPROCS"
      = match containerResources peer with
        | some res => (goMaxProcs res.limitsCpu).map (fun v => toString v)
        | none => none := by
  cases hres : containerResources peer with
  | none =>
    unfold containerEnvVars
    rw [hres]
    rfl
  | some res =>
    unfold containerEnvVars
    rw [hres]
    show lookupEnv
        (match goMaxProcs res.limitsCpu with
         | some value =>
             baseContainerEnv peer st ++ [{ name := "GOMAXPROCS", value := toString value }]
         | none => baseContainerEnv peer st) "GOMAXPROCS"
      = Option.map (fun v => toString v) (goMaxProcs res.limitsCpu)
    cases goMaxProcs res.limitsCpu with
    | none => rfl
    | some value => rfl

/-- Claim C6: for every CPU limit quantity on the pod template, a strictly
positive limit yields the concurrency hint `max 1 (floor of whole cores)` —
2500 millicores yields 2 and 250 millicores yields 1 — and a zero, negative
or absent limit sets no hint environment variable. -/
theorem claim_C6 :
    (∀ q : Int, 0 < q → goMaxProcs q = some (max 1 (q / 1000)))
      ∧ (∀ q : Int, q ≤ 0 → goMaxProcs q = none)
      ∧ goMaxProcs 2500 = some 2 ∧ goMaxProcs 250 = some 1 ∧ goMaxProcs 0 = none
      ∧ (∀ (peer : EtcdPeer) (rs : ReplicaSet), defineReplicaSet peer = some rs →
          lookupEnv (podEnv rs) "GOMAXPROCS"
            = match containerResources peer with
              | some res => (goMaxProcs res.limitsCpu).map (fun v => toString v)
              | none => none) := by
  refine ⟨?_, ?_, by decide, by decide, by decide, ?_⟩
  · intro q hq
    have hq' : ¬ q ≤ 0 := by omega
    simp only [goMaxProcs, if_neg hq']
    congr 1
    by_cases h : q / 1000 < 1
    · rw [if_pos h]
      exact (max_eq_left (by omega)).symm
    · rw [if_neg h]
      exact (max_eq_right (by omega)).symm
  · intro q hq
    simp only [goMaxProcs, if_pos hq]
  · intro peer rs h
    obtain ⟨st, _, henv⟩ := defineReplicaSet_inv peer rs h
    rw [henv, lookup_gomaxprocs]

/-- Witness for claim C6: the formula at 2500 millicores, and the rendered
hint `GOMAXPROCS=2` on the replica set built for the sample peer (whose CPU
limit is 2500 millicores). -/
theorem claim_C6_witness :
    goMaxProcs 2500 = some (max 1 (2500 / 1000))
      ∧ (defineReplicaSet samplePeer).map
          (fun rs => lookupEnv (podEnv rs) "GOMAXPROCS") = some (some "2") := by
  refine ⟨claim_C6.1 2500 (by decide), ?_⟩
  cases hrs : defineReplicaSet samplePeer with
  | none => exact Option.noConfusion hrs
  | some rs =>
    have hlook := claim_C6.2.2.2.2.2 samplePeer rs hrs
    show some (lookupEnv (podEnv rs) "GOMAXPROCS") = some (some "2")
    rw [hlook]
    rfl

/-- Shape of the container environment: the base entries, possibly followed
by one rendered hint entry. -/
theorem containerEnvVars_shape (peer : EtcdPeer) (st : StaticBootstrap) :
    containerEnvVars peer st = baseContainerEnv peer st
      ∨ ∃ v : Int, containerEnvVars peer st
          = baseContainerEnv peer st ++ [{ name := "GOMAXPROCS", value := toString v }] := by
  cases hres : containerResources peer with
  | none =>
    left
    unfold containerEnvVars
    rw [hres]
  | some res =>
    have hshape : containerEnvVars peer st
        = match goMaxProcs res.limitsCpu with
          | some value =>
              baseContainerEnv peer st ++ [{ name := "GOMAXPROCS", value := toString value }]
          | none => baseContainerEnv peer st := by
      unfold containerEnvVars
      rw [hres]
    cases hgm : goMaxProcs res.limitsCpu with
    | none =>
      left
      rw [hshape, hgm]
    | some value =>
      right
      exact ⟨value, by rw [hshape, hgm]⟩

/-- Lookups of the bootstrap entries in the container environment: each
yields the value `defineReplicaSet` stored for it, wherever the optional
hint entry ends up. -/
theorem lookup_url_entries (peer : EtcdPeer) (st : StaticBootstrap) :
    lookupEnv (containerEnvVars peer st) etcdenvvar.AdvertiseClientURLs
        = some (urlString (advertiseURL peer etcdClientPort))
      ∧ lookupEnv (containerEnvVars peer st) etcdenvvar.InitialAdvertisePeerURLs
        = some (urlString (advertiseURL peer etcdPeerPort))
      ∧ lookupEnv (containerEnvVars peer st) etcdenvvar.InitialCluster
        = some (staticBootstrapInitialCluster st) := by
  rcases containerEnvVars_shape peer st with h | ⟨v, h⟩ <;> rw [h] <;>
    exact ⟨rfl, rfl, rfl⟩

/-- Flattened rendering of a peer's advertise URL. -/
theorem advertise_url_eq (peer : EtcdPeer) (port : Nat) :
    urlString (advertiseURL peer port)
      = "http://" ++ peer.metadata.name ++ "." ++ peer.spec.clusterName ++ "."
          ++ peer.metadata.ns ++ ".svc:" ++ toString port := by
  show "http" ++ "://" ++ (peer.metadata.name ++ "." ++ peer.spec.clusterName ++ "."
      ++ peer.metadata.ns ++ ".svc:" ++ toString port)
    = "http://" ++ peer.metadata.name ++ "." ++ peer.spec.clusterName ++ "."
        ++ peer.metadata.ns ++ ".svc:" ++ toString port
  simp only [String.append_assoc]
  rw [show ("http://" : String) = "http" ++ "://" from rfl]
  simp only [String.append_assoc]

/-- Claim C8: for every peer declaration whose workload is built, the
advertised client and peer URLs in the workload's environment have host
`<peer-name>.<cluster-name>.<namespace>.svc` plus the fixed client and peer
ports respectively, with the http scheme. -/
theorem claim_C8 (peer : EtcdPeer) (rs : ReplicaSet)
    (h : defineReplicaSet peer = some rs) :
    lookupEnv (podEnv rs) etcdenvvar.AdvertiseClientURLs
        = some ("http://" ++ peer.metadata.name ++ "." ++ peer.spec.clusterName ++ "."
            ++ peer.metadata.ns ++ ".svc:" ++ toString etcdClientPort)
      ∧ lookupEnv (podEnv rs) etcdenvvar.InitialAdvertisePeerURLs
        = some ("http://" ++ peer.metadata.name ++ "." ++ peer.spec.clusterName ++ "."
            ++ peer.metadata.ns ++ ".svc:" ++ toString etcdPeerPort) := by
  obtain ⟨st, _, henv⟩ := defineReplicaSet_inv peer rs h
  rw [henv]
  obtain ⟨h1, h2, _⟩ := lookup_url_entries peer st
  rw [h1, h2, advertise_url_eq, advertise_url_eq]
  exact ⟨rfl, rfl⟩

/-- Witness for claim C8 at the sample peer: the advertised client URL of
peer `one` of cluster `magic` in namespace `default`. -/
theorem claim_C8_witness :
    (defineReplicaSet samplePeer).map
        (fun rs => lookupEnv (podEnv rs) etcdenvvar.AdvertiseClientURLs)
      = some (some "http://one.magic.default.svc:2379") := by
  cases hrs : defineReplicaSet samplePeer with
  | none => exact Option.noConfusion hrs
  | some rs =>
    have h := (claim_C8 samplePeer rs hrs).1
    show some (lookupEnv (podEnv rs) etcdenvvar.AdvertiseClientURLs)
      = some (some "http://one.magic.default.svc:2379")
    rw [h]
    rfl

/-- Claim C9: a watched volume-claim event object without the peer-identity
label maps to no reconciliation request; with the label, it maps to exactly
one request for the label's value in the object's namespace. -/
theorem claim_C9 (o : ObjectMeta) :
    (o.labels.lookup peerLabel = none → pvcMapper.Map o = [])
      ∧ (∀ v, o.labels.lookup peerLabel = some v
          → pvcMapper.Map o = [{ name := v, ns := o.ns }]) := by
  constructor
  · intro h
    unfold pvcMapper.Map
    rw [h]
  · intro v h
    unfold pvcMapper.Map
    rw [h]

/-- Metadata of a volume claim stamped with the peer-identity label, for
instantiating the event-router theorem. -/
def labelledPvcMeta : ObjectMeta :=
  { name := "one", ns := "default", deletionTimestamp := none,
    finalizers := [], labels := [(peerLabel, "one")] }

/-- Witness for claim C9 at a labelled object. -/
theorem claim_C9_witness :
    pvcMapper.Map labelledPvcMeta = [{ name := "one", ns := "default" }] :=
  (claim_C9 labelledPvcMeta).2 "one" rfl

/-- Claim C3: for every collected snapshot whose peer is present, carries a
deletion marker and still carries the cleanup finalizer, the decision switch
selects the cleanup action — never a create — whatever the observed claim
and workload are. -/
theorem claim_C3 (state : State) (peer : EtcdPeer)
    (hdel : peer.metadata.deletionTimestamp ≠ none)
    (hfin : hasPvcDeletionFinalizer peer = true) :
    selectAction state peer = some (.PeerPVCDeleter peer) := by
  have h1 : peer.metadata.deletionTimestamp.isNone = false := by
    cases h : peer.metadata.deletionTimestamp with
    | none => exact absurd h hdel
    | some t => rfl
  unfold selectAction
  rw [h1, hfin]
  rfl

/-- Witness for claim C3: the deleted-and-finalized sample peer together
with a snapshot in which both the claim and the workload are absent. -/
theorem claim_C3_witness :
    selectAction emptyState deletedPeer = some (.PeerPVCDeleter deletedPeer) :=
  claim_C3 emptyState deletedPeer (by decide) (by decide)

/-- Claim C2: on every cleanup pass that reads the volume claim as present
with a zero deletion timestamp, the execute returns — with or without an
error — without patching the peer's finalizers. -/
theorem claim_C2 (peer : EtcdPeer) (env : CleanupEnv)
    (pvc : PersistentVolumeClaim)
    (hget : env.getPvc = .found pvc)
    (hzero : pvc.metadata.deletionTimestamp = none) :
    (PVCDeleter.Execute peer env).patchCalled = false := by
  obtain ⟨ok, g, d, pe⟩ := env
  simp only at hget
  subst hget
  cases ok with
  | some e => simp [PVCDeleter.Execute]
  | none =>
    simp only [PVCDeleter.Execute, hzero, Option.isNone_none, if_true]
    cases d <;> rfl

/-- Witness for claim C2: a cleanup pass over the fresh (unmarked) claim
issues no finalizer patch. -/
theorem claim_C2_witness :
    (PVCDeleter.Execute deletedPeer freshCleanupEnv).patchCalled = false :=
  claim_C2 deletedPeer freshCleanupEnv freshPvc rfl rfl

/-- Counterexample to claim C1: a cleanup pass that finds the claim present
and already marked for deletion does remove the cleanup finalizer — the
execute issues the finalizer patch (and no delete) on that very pass,
rather than treating it as a wait. -/
theorem claim_C1_cex :
    markedCleanupEnv.getPvc = .found markedPvc
      ∧ markedPvc.metadata.deletionTimestamp ≠ none
      ∧ (PVCDeleter.Execute deletedPeer markedCleanupEnv).deleteCalled = false
      ∧ (PVCDeleter.Execute deletedPeer markedCleanupEnv).patchCalled = true
      ∧ (PVCDeleter.Execute deletedPeer markedCleanupEnv).err = none := by
  refine ⟨rfl, by decide, rfl, rfl, rfl⟩

/-- Claim C1 as amended: a pass that finds the claim present but already
marked for deletion performs no delete and proceeds to remove the cleanup
finalizer on that same pass; the finalizer patch is issued exactly when the
claim is confirmed absent or is present but already marked for deletion,
and never while the claim is present with a zero deletion timestamp. -/
theorem claim_C1_amended (peer : EtcdPeer) (env : CleanupEnv)
    (hk : env.objectKeyErr = none) :
    (∀ pvc, env.getPvc = .found pvc → pvc.metadata.deletionTimestamp ≠ none →
        (PVCDeleter.Execute peer env).deleteCalled = false
          ∧ (PVCDeleter.Execute peer env).patchCalled = true)
      ∧ (env.getPvc = .notFound → (PVCDeleter.Execute peer env).patchCalled = true)
      ∧ (∀ pvc, env.getPvc = .found pvc → pvc.metadata.deletionTimestamp = none →
          (PVCDeleter.Execute peer env).patchCalled = false) := by
  obtain ⟨ok, g, d, pe⟩ := env
  simp only at hk
  subst hk
  refine ⟨?_, ?_, ?_⟩
  · intro pvc hget hmarked
    simp only at hget
    subst hget
    have hfalse : pvc.metadata.deletionTimestamp.isNone = false := by
      cases h : pvc.metadata.deletionTimestamp with
      | none => exact absurd h hmarked
      | some t => rfl
    simp only [PVCDeleter.Execute, hfalse, Bool.false_eq_true, if_false]
    cases pe <;> exact ⟨rfl, rfl⟩
  · intro hget
    simp only at hget
    subst hget
    simp only [PVCDeleter.Execute]
    cases pe <;> rfl
  · intro pvc hget hzero
    simp only at hget
    subst hget
    simp only [PVCDeleter.Execute, hzero, Option.isNone_none, if_true]
    cases d <;> rfl

/-- Witness for the amended claim C1: the marked-claim cleanup pass issues
the finalizer patch and no delete. -/
theorem claim_C1_witness :
    (PVCDeleter.Execute deletedPeer markedCleanupEnv).deleteCalled = false
      ∧ (PVCDeleter.Execute deletedPeer markedCleanupEnv).patchCalled = true :=
  (claim_C1_amended deletedPeer markedCleanupEnv rfl).1 markedPvc rfl (by decide)

/-- Claim C4: state collection treats a not-found read as "absent", aborts
returning the error of any other failed read (checked in read order) with no
snapshot, and populates the desired claim and workload exactly when the peer
read returned present. -/
theorem claim_C4 (rPeer : GetResult EtcdPeer)
    (rPvc : GetResult PersistentVolumeClaim) (rRs : GetResult ReplicaSet) :
    (∀ msg, rPeer = .failed msg → GetState rPeer rPvc rRs = .err msg)
      ∧ (rPeer.isFailed = false → ∀ msg, rPvc = .failed msg →
          GetState rPeer rPvc rRs = .err msg)
      ∧ (rPeer.isFailed = false → rPvc.isFailed = false → ∀ msg, rRs = .failed msg →
          GetState rPeer rPvc rRs = .err msg)
      ∧ (∀ state, GetState rPeer rPvc rRs = .ok state →
          state.peer = rPeer.toOption.map EtcdPeerDefault
            ∧ state.pvc = rPvc.toOption
            ∧ state.replicaSet = rRs.toOption
            ∧ (state.desiredPVC.isSome ↔ state.peer.isSome)
            ∧ (state.desiredReplicaSet.isSome ↔ state.peer.isSome)) := by
  refine ⟨?_, ?_, ?_, ?_⟩
  · intro msg h
    subst h
    rfl
  · intro hnp msg h
    subst h
    cases rPeer with
    | failed m => simp [GetResult.isFailed] at hnp
    | found p => rfl
    | notFound => rfl
  · intro hnp hnv msg h
    subst h
    cases rPeer with
    | failed m => simp [GetResult.isFailed] at hnp
    | found p =>
      cases rPvc with
      | failed m => simp [GetResult.isFailed] at hnv
      | found pvc => rfl
      | notFound => rfl
    | notFound =>
      cases rPvc with
      | failed m => simp [GetResult.isFailed] at hnv
      | found pvc => rfl
      | notFound => rfl
  · intro state h
    cases rPeer with
    | failed m => exact CollectOutcome.noConfusion h
    | notFound =>
      cases rPvc with
      | failed m => exact CollectOutcome.noConfusion h
      | found pvc =>
        cases rRs with
        | failed m => exact CollectOutcome.noConfusion h
        | found rsObj =>
          injection h with h2
          subst h2
          exact ⟨rfl, rfl, rfl, by simp, by simp⟩
        | notFound =>
          injection h with h2
          subst h2
          exact ⟨rfl, rfl, rfl, by simp, by simp⟩
      | notFound =>
        cases rRs with
        | failed m => exact CollectOutcome.noConfusion h
        | found rsObj =>
          injection h with h2
          subst h2
          exact ⟨rfl, rfl, rfl, by simp, by simp⟩
        | notFound =>
          injection h with h2
          subst h2
          exact ⟨rfl, rfl, rfl, by simp, by simp⟩
    | found p =>
      cases rPvc with
      | failed m => exact CollectOutcome.noConfusion h
      | found pvc =>
        cases rRs with
        | failed m => exact CollectOutcome.noConfusion h
        | found rsObj =>
          simp only [GetState, GetResult.toOption] at h
          cases hdr : defineReplicaSet (EtcdPeerDefault p) with
          | none =>
            rw [hdr] at h
            exact CollectOutcome.noConfusion h
          | some rsd =>
            rw [hdr] at h
            injection h with h2
            subst h2
            exact ⟨rfl, rfl, rfl, by simp, by simp⟩
        | notFound =>
          simp only [GetState, GetResult.toOption] at h
          cases hdr : defineReplicaSet (EtcdPeerDefault p) with
          | none =>
            rw [hdr] at h
            exact CollectOutcome.noConfusion h
          | some rsd =>
            rw [hdr] at h
            injection h with h2
            subst h2
            exact ⟨rfl, rfl, rfl, by simp, by simp⟩
      | notFound =>
        cases rRs with
        | failed m => exact CollectOutcome.noConfusion h
        | found rsObj =>
          simp only [GetState, GetResult.toOption] at h
          cases hdr : defineReplicaSet (EtcdPeerDefault p) with
          | none =>
            rw [hdr] at h
            exact CollectOutcome.noConfusion h
          | some rsd =>
            rw [hdr] at h
            injection h with h2
            subst h2
            exact ⟨rfl, rfl, rfl, by simp, by simp⟩
        | notFound =>
          simp only [GetState, GetResult.toOption] at h
          cases hdr : defineReplicaSet (EtcdPeerDefault p) with
          | none =>
            rw [hdr] at h
            exact CollectOutcome.noConfusion h
          | some rsd =>
            rw [hdr] at h
            injection h with h2
            subst h2
            exact ⟨rfl, rfl, rfl, by simp, by simp⟩

/-- Witness for claim C4: a failed peer read aborts the collection with that
error. -/
theorem claim_C4_witness :
    GetState (.failed "boom") (.notFound : GetResult PersistentVolumeClaim)
        (.notFound : GetResult ReplicaSet) = .err "boom" :=
  (claim_C4 (.failed "boom") .notFound .notFound).1 "boom" rfl

/-- Claim C5: a pass whose collected peer is present but fails the defensive
validation terminates returning no error, selects no action, and performs no
store write. -/
theorem claim_C5 (env : ReconcileEnv) (state : State) (peer : EtcdPeer)
    (verr : String)
    (hcollect : GetState env.rPeer env.rPvc env.rRs = .ok state)
    (hpeer : state.peer = some peer)
    (hinvalid : env.validateErr = some verr) :
    Reconcile env = .done none none := by
  have hred : Reconcile env
      = match state.peer with
        | none => .done none none
        | some peer =>
          match env.validateErr with
          | some _ => .done none none
          | none =>
            match selectAction state peer with
            | none => .done none none
            | some a => .done (some a) (executeAction a env)
      := by
    unfold Reconcile
    rw [hcollect]
  rw [hred, hpeer, hinvalid]

/-- Reconciliation-pass store responses whose peer read returns the sample
peer and whose defensive validation reports an error. -/
def invalidEnv : ReconcileEnv :=
  { rPeer := .found samplePeer, rPvc := .notFound, rRs := .notFound,
    validateErr := some "invalid EtcdPeer", cleanup := freshCleanupEnv,
    createResult := .created }

/-- Witness for claim C5 at the invalid-validation environment. -/
theorem claim_C5_witness : Reconcile invalidEnv = .done none none := by
  have h : ∃ s, GetState invalidEnv.rPeer invalidEnv.rPvc invalidEnv.rRs = .ok s
      ∧ s.peer = some (EtcdPeerDefault samplePeer) := ⟨_, rfl, rfl⟩
  obtain ⟨s, hs, hp⟩ := h
  exact claim_C5 invalidEnv s (EtcdPeerDefault samplePeer) "invalid EtcdPeer" hs hp rfl

/-- A concrete stored peer whose declaration lacks a static bootstrap
list. -/
def nostaticPeer : EtcdPeer :=
  { metadata :=
      { name := "one", ns := "default", deletionTimestamp := none,
        finalizers := [], labels := [] }
    spec :=
      { clusterName := "magic"
        bootstrap := { static := none, initialClusterState := .stateNew }
        storage := ⟨⟨"sample-storage"⟩⟩
        podTemplate := none } }

/-- Reconciliation-pass store responses whose peer read returns the peer
without a static bootstrap list. -/
def nostaticEnv : ReconcileEnv :=
  { rPeer := .found nostaticPeer, rPvc := .notFound, rRs := .notFound,
    validateErr := none, cleanup := freshCleanupEnv, createResult := .created }

/-- Claim C10: a stored peer whose (defaulted) declaration lacks a static
bootstrap list makes the pass fault during state collection — the desired
workload is computed there, before the defensive validation can run — so the
whole reconciliation pass faults, whatever the validation outcome would have
been. -/
theorem claim_C10 (env : ReconcileEnv) (p : EtcdPeer)
    (hp : env.rPeer = .found p)
    (hpvc : env.rPvc.isFailed = false)
    (hrs : env.rRs.isFailed = false)
    (hstatic : (EtcdPeerDefault p).spec.bootstrap.static = none) :
    GetState env.rPeer env.rPvc env.rRs = .panics ∧ Reconcile env = .panics := by
  have hdr : defineReplicaSet (EtcdPeerDefault p) = none := by
    unfold defineReplicaSet
    rw [hstatic]
  have hg : GetState env.rPeer env.rPvc env.rRs = .panics := by
    rw [hp]
    cases hv : env.rPvc with
    | failed m =>
      rw [hv] at hpvc
      simp [GetResult.isFailed] at hpvc
    | found pvcObj =>
      cases hr : env.rRs with
      | failed m =>
        rw [hr] at hrs
        simp [GetResult.isFailed] at hrs
      | found rsObj =>
        simp only [GetState, GetResult.toOption]
        rw [hdr]
      | notFound =>
        simp only [GetState, GetResult.toOption]
        rw [hdr]
    | notFound =>
      cases hr : env.rRs with
      | failed m =>
        rw [hr] at hrs
        simp [GetResult.isFailed] at hrs
      | found rsObj =>
        simp only [GetState, GetResult.toOption]
        rw [hdr]
      | notFound =>
        simp only [GetState, GetResult.toOption]
        rw [hdr]
  refine ⟨hg, ?_⟩
  unfold Reconcile
  rw [hg]

/-- Witness for claim C10 at the peer without a static bootstrap list. -/
theorem claim_C10_witness :
    GetState nostaticEnv.rPeer nostaticEnv.rPvc nostaticEnv.rRs = .panics
      ∧ Reconcile nostaticEnv = .panics :=
  claim_C10 nostaticEnv nostaticPeer rfl rfl rfl rfl
